import Mathlib

/-!
Shallow embedding of the `warera-dmg-calculator` transaction pipeline
(`get_transaction/test.py` and `get_transaction/test2.py`).

The pipeline is: cursor-paginated fetch of transaction records, memoised
resolution of user and country identifiers into names, a pandas-style
column transform (`clean_and_export`), and a post-process rewrite of the
exported files (`test2.py`).

Modelling conventions:
  * pandas cell values are the inductive `Value` (finite rationals stand in
    for IEEE floats; `inf`/`ninf`/`nan` are explicit constructors, so the
    special behaviour of division by zero and missing data is preserved);
  * HTTP plus JSON-field extraction is an oracle function `Value → Option String`
    (`none` models any request, decoding, or missing-field failure);
  * a DataFrame is an association list of named columns (pandas frames are
    column-major); Python dict caches are association lists as well;
  * Python exceptions that the source does not catch are an `Except Err`.
-/

/-- Association-list lookup keyed by decidable equality (models Python
`dict.__getitem__` and pandas column access). -/
def dget {α β : Type} [DecidableEq α] (k : α) : List (α × β) → Option β
  | [] => none
  | p :: t => if p.1 = k then some p.2 else dget k t

/-- Association-list insert/overwrite (models Python `dict.__setitem__` and
pandas column assignment: replace the column if present, append otherwise). -/
def dset {α β : Type} [DecidableEq α] : List (α × β) → α → β → List (α × β)
  | [], k, v => [(k, v)]
  | p :: t, k, v => if p.1 = k then (k, v) :: t else p :: dset t k v

theorem dget_dset_same {α β : Type} [DecidableEq α] (l : List (α × β)) (k : α) (v : β) :
    dget k (dset l k v) = some v := by
  induction l with
  | nil => simp [dget, dset]
  | cons p t ih =>
    by_cases h : p.1 = k
    · simp [dget, dset, h]
    · simp [dget, dset, h, ih]

theorem dget_dset_ne {α β : Type} [DecidableEq α] (l : List (α × β)) {k k' : α} (v : β)
    (h : k' ≠ k) : dget k (dset l k' v) = dget k l := by
  induction l with
  | nil => simp [dget, dset, h]
  | cons p t ih =>
    by_cases hp : p.1 = k'
    · simp [dget, dset, hp, h]
    · by_cases hk : p.1 = k
      · simp [dget, dset, hp, hk, Ne.symm h]
      · simp [dget, dset, hp, hk, ih]

theorem dget_isSome_dset {α β : Type} [DecidableEq α] (l : List (α × β)) (k k' : α) (v : β)
    (h : (dget k l).isSome) : (dget k (dset l k' v)).isSome := by
  by_cases hk : k' = k
  · subst hk; simp [dget_dset_same]
  · rwa [dget_dset_ne l v hk]

/-- Decimal digit test on characters (codepoints 48–57). -/
def isDigitC (c : Char) : Bool := decide (48 ≤ c.toNat) && decide (c.toNat ≤ 57)

/-- Value of a big-endian list of decimal digit characters. -/
def digitsToNat (l : List Char) : Nat := l.foldl (fun a c => 10 * a + (c.toNat - 48)) 0

/-- One decimal digit as a character. -/
def digitChar (d : Nat) : Char := Char.ofNat (48 + d)

/-- A pandas cell value.  `num` carries an exact rational standing in for a
finite IEEE double; `inf`, `ninf` and `nan` model the non-finite doubles that
pandas uses for division by zero and for missing data. -/
inductive Value : Type where
  | str (s : String)
  | num (q : Rat)
  | nan
  | inf
  | ninf
deriving DecidableEq

/-- Python exceptions that escape the source code (nothing in
`clean_and_export` or `__main__` is wrapped in try/except). -/
inductive Err : Type where
  | keyError (c : String)
  | valueError (s : String)
  | dateError (v : Value)
deriving DecidableEq

/-- Numeric-literal recogniser modelling `float(s)` / the pandas numeric
parser on the decimal literals the API produces: optional sign, an integer
part, an optional fraction introduced by a dot (at least one digit overall). -/
def parseFloatQ (s : String) : Option Rat :=
  let l := s.data
  let sgn : Bool × List Char :=
    match l with
    | '-' :: t => (true, t)
    | '+' :: t => (false, t)
    | _ => (false, l)
  let ip := sgn.2.takeWhile isDigitC
  let rest := sgn.2.dropWhile isDigitC
  let mag : Option Rat :=
    match rest with
    | [] => if ip = [] then none else some (digitsToNat ip)
    | '.' :: frac =>
      if frac.all isDigitC ∧ (ip ≠ [] ∨ frac ≠ []) then
        some ((digitsToNat ip : Rat) + (digitsToNat frac : Rat) / ((10 : Rat) ^ frac.length))
      else none
    | _ => none
  mag.map (fun q => if sgn.1 then -q else q)

/-- One raw transaction record as decoded from `result.data.items`: a JSON
object, i.e. named fields. -/
abbrev TransRecord := List (String × Value)

/-- One HTTP response of the paginated transaction endpoint, as the source
reads it: a status code, the decoded `result.data.items`, and the decoded
optional `result.data.nextCursor`. -/
structure Page : Type where
  status : Nat
  items : List TransRecord
  nextCursor : Option String

/-- Python truthiness of `data["result"]["data"].get("nextCursor")`:
present and not the empty string. -/
def hasCursor (p : Page) : Bool :=
  match p.nextCursor with
  | some c => decide (c ≠ "")
  | none => false

/-- Embedding of `fetch_transactions` over the sequence of responses the
endpoint will serve, in order.  Mirrors the source loop: break (returning the
accumulator) on a status other than 200 before touching the body; otherwise
extend the accumulator with the page's items, then break if no (truthy)
`nextCursor` is present. -/
def fetch_transactions : List Page → List TransRecord
  | [] => []
  | p :: ps =>
    if p.status = 200 then
      p.items ++ (if hasCursor p then fetch_transactions ps else [])
    else []

/-- A page after which the spec sentence of claim C1 would keep counting:
status 200 and a truthy next cursor. -/
def pageContinues (p : Page) : Bool := decide (p.status = 200) && hasCursor p

/-- The item count asserted by claim C1, written from the claim text: the sum
of per-page item counts up to and excluding the first page that fails or
carries no next cursor. -/
def claimC1Count (pages : List Page) : Nat :=
  ((pages.takeWhile pageContinues).map (fun p => p.items.length)).sum

/-- Item count contributed by the page the loop stops at: a final page read
with status 200 (its items are extended before the cursor check) counts; a
non-200 page does not (the loop breaks before reading the body). -/
def stopPageCount (pages : List Page) : Nat :=
  match pages.dropWhile pageContinues with
  | [] => 0
  | p :: _ => if p.status = 200 then p.items.length else 0

/-- C1 (counterexample): a single successful page with one item and no next
cursor.  The source extends the accumulator before checking the cursor, so
the returned collection has 1 item, while the claim's count — which excludes
the first cursor-less page — is 0. -/
theorem c1_count_excludes_last_page_false :
    (fetch_transactions [⟨200, [[("itemCode", Value.str "food")]], none⟩]).length = 1 ∧
    claimC1Count [⟨200, [[("itemCode", Value.str "food")]], none⟩] = 0 := by
  constructor
  · rfl
  · rfl

/-- C1 (amended): the returned collection's item count equals the sum of the
per-page item counts up to and excluding the first page with status ≠ 200 or
without a next cursor, plus the items of the stopping page itself when that
page was read with status 200 (a final cursor-less page is included; a
non-200 page is not).  On a non-200 status the loop stops immediately and
returns the accumulated items without raising. -/
theorem c1_item_count (pages : List Page) :
    (fetch_transactions pages).length = claimC1Count pages + stopPageCount pages := by
  induction pages with
  | nil => rfl
  | cons p ps ih =>
    by_cases hc : pageContinues p = true
    · have h200 : p.status = 200 := by
        have := hc
        unfold pageContinues at this
        simp at this
        exact this.1
      have hcur : hasCursor p = true := by
        have := hc
        unfold pageContinues at this
        simp at this
        exact this.2
      simp [fetch_transactions, h200, hcur, claimC1Count, stopPageCount,
        List.takeWhile_cons, List.dropWhile_cons, hc] at ih ⊢
      omega
    · by_cases h200 : p.status = 200
      · have hcur : hasCursor p = false := by
          unfold pageContinues at hc
          simp [h200] at hc
          exact hc
        simp [fetch_transactions, h200, hcur, claimC1Count, stopPageCount,
          List.takeWhile_cons, List.dropWhile_cons, hc]
      · simp [fetch_transactions, h200, claimC1Count, stopPageCount,
          List.takeWhile_cons, List.dropWhile_cons, hc]

/-- A pandas DataFrame, column-major: an association list from column name
to the column's cells. -/
structure DataFrame : Type where
  cols : List (String × List Value)
deriving DecidableEq

/-- Column access `df["c"]`: raises `KeyError` when the column is absent. -/
def getColE (df : DataFrame) (c : String) : Except Err (List Value) :=
  match dget c df.cols with
  | some col => .ok col
  | none => .error (.keyError c)

/-- Column assignment `df["c"] = series`. -/
def setCol (df : DataFrame) (c : String) (vals : List Value) : DataFrame :=
  ⟨dset df.cols c vals⟩

/-- The column names of a frame, in order. -/
def colNames (df : DataFrame) : List String := df.cols.map Prod.fst

/-- Keys of one record in first-appearance order, appended to an accumulator
(used by the `pd.DataFrame(list_of_dicts)` constructor). -/
def addKeys (acc : List String) (r : TransRecord) : List String :=
  r.foldl (fun a kv => if a.contains kv.1 then a else a ++ [kv.1]) acc

/-- Embedding of `pd.DataFrame(all_items)`: columns are the record keys in
first-appearance order; a record lacking a key contributes `NaN`. -/
def dfOfRecords (recs : List TransRecord) : DataFrame :=
  let ks := recs.foldl addKeys []
  ⟨ks.map (fun c => (c, recs.map (fun r => (dget c r).getD Value.nan)))⟩

/-- A memoisation cache (`user_cache` / `country_cache`): a Python dict from
raw identifier to display value. -/
abbrev Cache := List (Value × Value)

/-- `pd.isna` on a cell. -/
def isna (v : Value) : Bool := decide (v = Value.nan)

/-- Embedding of `fetch_username`.  `net` is the oracle for
`requests.get(url).json()["result"]["data"]["username"]`; `none` models any
failure caught by the bare `except` (network error, bad JSON, missing field).
Returns the updated cache and the number of HTTP requests issued. -/
def fetch_username (net : Value → Option String) (user_cache : Cache) (user_id : Value) :
    Cache × Nat :=
  if isna user_id ∨ (dget user_id user_cache).isSome then (user_cache, 0)
  else
    match net user_id with
    | some name => (dset user_cache user_id (Value.str name), 1)
    | none => (dset user_cache user_id user_id, 1)

/-- Embedding of `fetch_country_name`; identical control flow against the
country endpoint oracle and `country_cache`. -/
def fetch_country_name (net : Value → Option String) (country_cache : Cache)
    (country_id : Value) : Cache × Nat :=
  if isna country_id ∨ (dget country_id country_cache).isSome then (country_cache, 0)
  else
    match net country_id with
    | some name => (dset country_cache country_id (Value.str name), 1)
    | none => (dset country_cache country_id country_id, 1)

/-- C2: after `fetch_username` (resp. `fetch_country_name`) returns on a
non-null ID, the cache has an entry for that ID; when the ID was not already
cached, the entry is the resolved name on oracle success and the raw ID
itself on failure.  Both functions are total (the bare `except` means no
error reaches the caller). -/
theorem c2_resolver_populates_cache (unet cnet : Value → Option String)
    (user_cache country_cache : Cache) (v : Value) (hv : v ≠ Value.nan) :
    ((dget v (fetch_username unet user_cache v).1).isSome ∧
      (dget v user_cache = none →
        dget v (fetch_username unet user_cache v).1 =
          some (match unet v with | some n => Value.str n | none => v))) ∧
    ((dget v (fetch_country_name cnet country_cache v).1).isSome ∧
      (dget v country_cache = none →
        dget v (fetch_country_name cnet country_cache v).1 =
          some (match cnet v with | some n => Value.str n | none => v))) := by
  have hna : isna v = false := by simp [isna, hv]
  constructor
  · constructor
    · by_cases hin : (dget v user_cache).isSome
      · simp [fetch_username, hna, hin]
      · cases hn : unet v <;> simp [fetch_username, hna, hin, hn, dget_dset_same]
    · intro hnone
      have hin : (dget v user_cache).isSome = false := by simp [hnone]
      cases hn : unet v <;> simp [fetch_username, hna, hin, hn, dget_dset_same]
  · constructor
    · by_cases hin : (dget v country_cache).isSome
      · simp [fetch_country_name, hna, hin]
      · cases hn : cnet v <;> simp [fetch_country_name, hna, hin, hn, dget_dset_same]
    · intro hnone
      have hin : (dget v country_cache).isSome = false := by simp [hnone]
      cases hn : cnet v <;> simp [fetch_country_name, hna, hin, hn, dget_dset_same]

/-- C2 witness: a fresh user ID resolved successfully and a fresh country ID
whose lookup fails land in their caches (name, resp. identity fallback). -/
theorem c2_resolver_populates_cache_witness :
    (Value.str "u1" ≠ Value.nan) ∧
    (((dget (Value.str "u1")
        (fetch_username (fun _ => some "alice") [] (Value.str "u1")).1).isSome ∧
      (dget (Value.str "u1") ([] : Cache) = none →
        dget (Value.str "u1")
          (fetch_username (fun _ => some "alice") [] (Value.str "u1")).1 =
            some (match (fun (_ : Value) => some "alice") (Value.str "u1") with
              | some n => Value.str n | none => Value.str "u1"))) ∧
     ((dget (Value.str "u1")
        (fetch_country_name (fun _ => none) [] (Value.str "u1")).1).isSome ∧
      (dget (Value.str "u1") ([] : Cache) = none →
        dget (Value.str "u1")
          (fetch_country_name (fun _ => none) [] (Value.str "u1")).1 =
            some (match (fun (_ : Value) => none) (Value.str "u1") with
              | some n => Value.str n | none => Value.str "u1")))) :=
  ⟨by decide,
   c2_resolver_populates_cache (fun _ => some "alice") (fun _ => none) [] []
     (Value.str "u1") (by decide)⟩

/-- C7: per-key idempotence of the resolvers.  A missing/null ID is a no-op
issuing no request; an ID already cached is a no-op issuing no request and
leaving the cached value untouched; and resolving the same ID twice equals
resolving it once (the second call issues no request and returns the cache of
the first unchanged). -/
theorem c7_resolution_idempotent (unet cnet : Value → Option String)
    (user_cache country_cache : Cache) (v : Value) :
    (fetch_username unet user_cache Value.nan = (user_cache, 0)) ∧
    ((dget v user_cache).isSome → fetch_username unet user_cache v = (user_cache, 0)) ∧
    (fetch_username unet (fetch_username unet user_cache v).1 v =
      ((fetch_username unet user_cache v).1, 0)) ∧
    (fetch_country_name cnet country_cache Value.nan = (country_cache, 0)) ∧
    ((dget v country_cache).isSome →
      fetch_country_name cnet country_cache v = (country_cache, 0)) ∧
    (fetch_country_name cnet (fetch_country_name cnet country_cache v).1 v =
      ((fetch_country_name cnet country_cache v).1, 0)) := by
  refine ⟨by simp [fetch_username, isna], ?_, ?_, by simp [fetch_country_name, isna], ?_, ?_⟩
  · intro h; simp [fetch_username, h]
  · by_cases hna : isna v
    · simp [fetch_username, hna]
    · by_cases hin : (dget v user_cache).isSome
      · simp [fetch_username, hna, hin]
      · cases hn : unet v <;>
          simp [fetch_username, hna, hin, hn, dget_dset_same]
  · intro h; simp [fetch_country_name, h]
  · by_cases hna : isna v
    · simp [fetch_country_name, hna]
    · by_cases hin : (dget v country_cache).isSome
      · simp [fetch_country_name, hna, hin]
      · cases hn : cnet v <;>
          simp [fetch_country_name, hna, hin, hn, dget_dset_same]

/-- C7 witness: at a concrete cache already holding the key, the call is a
no-op with zero requests. -/
theorem c7_resolution_idempotent_witness :
    ((dget (Value.str "u1") ([(Value.str "u1", Value.str "alice")] : Cache)).isSome) ∧
    (fetch_username (fun _ => some "bob") [(Value.str "u1", Value.str "alice")]
      (Value.str "u1") = ([(Value.str "u1", Value.str "alice")], 0)) :=
  ⟨by decide,
   (c7_resolution_idempotent (fun _ => some "bob") (fun _ => some "bob")
     [(Value.str "u1", Value.str "alice")] [] (Value.str "u1")).2.1 (by decide)⟩

/-- Embedding of one cell of `df["money"].astype(float)`: numbers pass
through, missing stays missing, a string must parse as a float literal —
otherwise Python raises `ValueError` and the whole call aborts. -/
def astype_float (v : Value) : Except Err Value :=
  match v with
  | .num q => .ok (.num q)
  | .nan => .ok .nan
  | .inf => .ok .inf
  | .ninf => .ok .ninf
  | .str s =>
    match parseFloatQ s with
    | some q => .ok (.num q)
    | none => .error (.valueError s)

/-- Embedding of one cell of `pd.to_numeric(df["quantity"], errors='coerce')`:
an unparsable string becomes the missing marker `NaN` instead of raising. -/
def to_numeric_coerce (v : Value) : Value :=
  match v with
  | .num q => .num q
  | .nan => .nan
  | .inf => .inf
  | .ninf => .ninf
  | .str s =>
    match parseFloatQ s with
    | some q => .num q
    | none => .nan

/-- Embedding of one cell of `series.map(cache)`: pandas `Series.map` with a
dict maps any value absent from the dict (including `NaN`) to `NaN`, and a
present key to exactly the stored value. -/
def mapCell (cache : Cache) (v : Value) : Value :=
  (dget v cache).getD Value.nan

/-- IEEE-style elementwise division as numpy performs it on float columns:
`NaN` propagates; a finite number divided by zero gives a signed infinity
(`NaN` for 0/0) and never raises.  String cells cannot appear here after the
numeric coercions of `clean_and_export`; they are sent to `NaN`. -/
def floatDiv : Value → Value → Value
  | .nan, _ => .nan
  | _, .nan => .nan
  | .str _, _ => .nan
  | _, .str _ => .nan
  | .num a, .num b =>
    if b ≠ 0 then .num (a / b)
    else if 0 < a then .inf
    else if a < 0 then .ninf
    else .nan
  | .num _, .inf => .num 0
  | .num _, .ninf => .num 0
  | .inf, .num b => if b < 0 then .ninf else .inf
  | .ninf, .num b => if b < 0 then .inf else .ninf
  | .inf, .inf => .nan
  | .inf, .ninf => .nan
  | .ninf, .inf => .nan
  | .ninf, .ninf => .nan

/-- ISO-8601 timestamp reformatting, embedding
`pd.to_datetime(col).dt.strftime('%d/%m/%Y %H:%M')` on the
`YYYY-MM-DDTHH:MM:SS[.sss][Z]` strings the API serves: an unparsable cell
raises (`pd.to_datetime` has no `errors='coerce'` here), `NaN` stays missing
(`NaT` formats back to missing). -/
def parseIso (s : String) : Option String :=
  let l := s.data
  let y := l.take 4
  let m := (l.drop 5).take 2
  let d := (l.drop 8).take 2
  let hh := (l.drop 11).take 2
  let mm := (l.drop 14).take 2
  if y.all isDigitC ∧ y.length = 4 ∧ (l.drop 4).take 1 = ['-'] ∧
      m.all isDigitC ∧ m.length = 2 ∧ (l.drop 7).take 1 = ['-'] ∧
      d.all isDigitC ∧ d.length = 2 ∧ (l.drop 10).take 1 = ['T'] ∧
      hh.all isDigitC ∧ hh.length = 2 ∧ (l.drop 13).take 1 = [':'] ∧
      mm.all isDigitC ∧ mm.length = 2 ∧
      1 ≤ digitsToNat m ∧ digitsToNat m ≤ 12 ∧
      1 ≤ digitsToNat d ∧ digitsToNat d ≤ 31 ∧
      digitsToNat hh ≤ 23 ∧ digitsToNat mm ≤ 59 then
    some (String.mk (d ++ '/' :: m ++ '/' :: y ++ ' ' :: hh ++ ':' :: mm))
  else none

/-- One cell of step 4 of `clean_and_export` (timestamp reformatting). -/
def fmt_updatedAt (v : Value) : Except Err Value :=
  match v with
  | .str s =>
    match parseIso s with
    | some out => .ok (.str out)
    | none => .error (.dateError (.str s))
  | .nan => .ok .nan
  | w => .error (.dateError w)

/-- Map an exception-throwing cell operation over a column, aborting at the
first failing cell (as pandas `astype` / `to_datetime` do). -/
def mapColE (f : Value → Except Err Value) : List Value → Except Err (List Value)
  | [] => .ok []
  | v :: t =>
    match f v with
    | .error e => .error e
    | .ok w =>
      match mapColE f t with
      | .error e => .error e
      | .ok ws => .ok (w :: ws)

/-- Column selection `df[[...]]`: the requested columns in the requested
order; a missing name raises `KeyError`. -/
def selectColsA (df : DataFrame) : List String → Except Err (List (String × List Value))
  | [] => .ok []
  | n :: t =>
    match getColE df n with
    | .error e => .error e
    | .ok col =>
      match selectColsA df t with
      | .error e => .error e
      | .ok rest => .ok ((n, col) :: rest)

/-- The rename dictionary passed to `.rename(columns=...)`. -/
def renameMap : List (String × String) :=
  [("sellerCountryId", "sellerCountry"), ("sellerId", "sellBy"),
   ("buyerCountryId", "buyerCountry"), ("buyerId", "buyerBy"),
   ("money", "totalMoney")]

/-- `df.rename(columns=renameMap)`: names found in the dictionary are
replaced, others kept. -/
def renameCols (cols : List (String × List Value)) : List (String × List Value) :=
  cols.map (fun p => ((dget p.1 renameMap).getD p.1, p.2))

/-- The selection list of step 5 of `clean_and_export` (pre-rename names). -/
def finalSelection : List String :=
  ["sellerCountryId", "sellerId", "itemCode", "quantity",
   "moneyPerUnit", "buyerCountryId", "buyerId", "money", "updatedAt"]

/-- Embedding of `clean_and_export(df)`.  Returns the pair
(mutated input frame, projected/renamed frame written to both files), or the
first uncaught Python exception.  Steps, in source order: coerce `money`
(`astype(float)`, may raise), coerce `quantity` (`to_numeric` with coercion),
replace the four ID columns through the caches, compute
`moneyPerUnit = money / quantity`, reformat `updatedAt`, then select and
rename the nine output columns.  The file writes serialise the second
component; they are not modelled further. -/
def clean_and_export (df : DataFrame) (user_cache country_cache : Cache) :
    Except Err (DataFrame × DataFrame) :=
  match getColE df "money" with
  | .error e => .error e
  | .ok money0 =>
  match mapColE astype_float money0 with
  | .error e => .error e
  | .ok money1 =>
  let df1 := setCol df "money" money1
  match getColE df1 "quantity" with
  | .error e => .error e
  | .ok qty0 =>
  let df2 := setCol df1 "quantity" (qty0.map to_numeric_coerce)
  match getColE df2 "sellerId" with
  | .error e => .error e
  | .ok s0 =>
  let df3 := setCol df2 "sellerId" (s0.map (mapCell user_cache))
  match getColE df3 "buyerId" with
  | .error e => .error e
  | .ok b0 =>
  let df4 := setCol df3 "buyerId" (b0.map (mapCell user_cache))
  match getColE df4 "sellerCountryId" with
  | .error e => .error e
  | .ok sc0 =>
  let df5 := setCol df4 "sellerCountryId" (sc0.map (mapCell country_cache))
  match getColE df5 "buyerCountryId" with
  | .error e => .error e
  | .ok bc0 =>
  let df6 := setCol df5 "buyerCountryId" (bc0.map (mapCell country_cache))
  match getColE df6 "money" with
  | .error e => .error e
  | .ok m =>
  match getColE df6 "quantity" with
  | .error e => .error e
  | .ok q =>
  let df7 := setCol df6 "moneyPerUnit" (List.zipWith floatDiv m q)
  match getColE df7 "updatedAt" with
  | .error e => .error e
  | .ok u0 =>
  match mapColE fmt_updatedAt u0 with
  | .error e => .error e
  | .ok u1 =>
  let df8 := setCol df7 "updatedAt" u1
  match selectColsA df8 finalSelection with
  | .error e => .error e
  | .ok sel => .ok (df8, ⟨renameCols sel⟩)

theorem getColE_setCol_ne (df : DataFrame) (c c' : String) (v : List Value)
    (h : c' ≠ c) : getColE (setCol df c' v) c = getColE df c := by
  simp [getColE, setCol, dget_dset_ne _ _ h]

theorem getColE_setCol_same (df : DataFrame) (c : String) (v : List Value) :
    getColE (setCol df c v) c = .ok v := by
  simp [getColE, setCol, dget_dset_same]

theorem getColE_ok_dget {df : DataFrame} {c : String} {col : List Value}
    (h : getColE df c = .ok col) : dget c df.cols = some col := by
  unfold getColE at h
  cases hd : dget c df.cols with
  | none => simp [hd] at h
  | some col2 => simp [hd] at h; simp [h]

theorem dget_getColE_ok {df : DataFrame} {c : String} {col : List Value}
    (h : dget c df.cols = some col) : getColE df c = .ok col := by
  simp [getColE, h]

theorem selectColsA_keys (df : DataFrame) :
    ∀ (ns : List String) (cs : List (String × List Value)),
      selectColsA df ns = .ok cs → cs.map Prod.fst = ns := by
  intro ns
  induction ns with
  | nil => intro cs h; simp [selectColsA] at h; simp [← h]
  | cons n t ih =>
    intro cs h
    unfold selectColsA at h
    cases h1 : getColE df n with
    | error e => simp [h1] at h
    | ok col =>
      simp only [h1] at h
      cases h2 : selectColsA df t with
      | error e => simp [h2] at h
      | ok rest =>
        simp only [h2] at h
        simp only [Except.ok.injEq] at h
        subst h
        simp [ih rest h2]

theorem renameCols_keys (cs : List (String × List Value)) :
    (renameCols cs).map Prod.fst = (cs.map Prod.fst).map (fun n => (dget n renameMap).getD n) := by
  induction cs with
  | nil => rfl
  | cons p t ih => simp [renameCols, List.map_cons, ih]

/-- The columns of the input frame that `clean_and_export` reassigns in place
(the appended `moneyPerUnit` column included). -/
def mutatedCols : List String :=
  ["money", "quantity", "sellerId", "buyerId", "sellerCountryId",
   "buyerCountryId", "moneyPerUnit", "updatedAt"]

/-- Decomposition of a successful `clean_and_export` run: relates each column
of the mutated frame and the names of the exported frame to the input frame
and the caches. -/
theorem clean_ok_decomp (df : DataFrame) (uc cc : Cache) (d2 fin : DataFrame)
    (h : clean_and_export df uc cc = Except.ok (d2, fin)) :
    ∃ mon0 qty0 s0 b0 sc0 bc0 u0 mon1 u1,
      dget "money" df.cols = some mon0 ∧ mapColE astype_float mon0 = .ok mon1 ∧
      dget "quantity" df.cols = some qty0 ∧
      dget "sellerId" df.cols = some s0 ∧
      dget "buyerId" df.cols = some b0 ∧
      dget "sellerCountryId" df.cols = some sc0 ∧
      dget "buyerCountryId" df.cols = some bc0 ∧
      dget "updatedAt" df.cols = some u0 ∧ mapColE fmt_updatedAt u0 = .ok u1 ∧
      dget "money" d2.cols = some mon1 ∧
      dget "quantity" d2.cols = some (qty0.map to_numeric_coerce) ∧
      dget "sellerId" d2.cols = some (s0.map (mapCell uc)) ∧
      dget "buyerId" d2.cols = some (b0.map (mapCell uc)) ∧
      dget "sellerCountryId" d2.cols = some (sc0.map (mapCell cc)) ∧
      dget "buyerCountryId" d2.cols = some (bc0.map (mapCell cc)) ∧
      dget "moneyPerUnit" d2.cols =
        some (List.zipWith floatDiv mon1 (qty0.map to_numeric_coerce)) ∧
      dget "updatedAt" d2.cols = some u1 ∧
      (∀ c, c ∉ mutatedCols → dget c d2.cols = dget c df.cols) ∧
      colNames fin = ["sellerCountry", "sellBy", "itemCode", "quantity",
        "moneyPerUnit", "buyerCountry", "buyerBy", "totalMoney", "updatedAt"] := by
  simp only [clean_and_export] at h
  split at h
  · exact Except.noConfusion h
  rename_i mon0 h0
  split at h
  · exact Except.noConfusion h
  rename_i mon1 h1
  split at h
  · exact Except.noConfusion h
  rename_i qty0 h2
  split at h
  · exact Except.noConfusion h
  rename_i s0 h3
  split at h
  · exact Except.noConfusion h
  rename_i b0 h4
  split at h
  · exact Except.noConfusion h
  rename_i sc0 h5
  split at h
  · exact Except.noConfusion h
  rename_i bc0 h6
  split at h
  · exact Except.noConfusion h
  rename_i m h7
  split at h
  · exact Except.noConfusion h
  rename_i q h8
  split at h
  · exact Except.noConfusion h
  rename_i u0 h9
  split at h
  · exact Except.noConfusion h
  rename_i u1 h10
  split at h
  · exact Except.noConfusion h
  rename_i sel h11
  simp only [Except.ok.injEq, Prod.mk.injEq] at h
  obtain ⟨hd2, hfin⟩ := h
  simp [getColE_setCol_ne, getColE_setCol_same] at h2 h3 h4 h5 h6 h7 h8 h9
  subst h7
  subst h8
  refine ⟨mon0, qty0, s0, b0, sc0, bc0, u0, mon1, u1,
    getColE_ok_dget h0, h1, getColE_ok_dget h2, getColE_ok_dget h3,
    getColE_ok_dget h4, getColE_ok_dget h5, getColE_ok_dget h6,
    getColE_ok_dget h9, h10, ?_, ?_, ?_, ?_, ?_, ?_, ?_, ?_, ?_, ?_⟩
  · rw [← hd2]; simp [setCol, dget_dset_ne, dget_dset_same]
  · rw [← hd2]; simp [setCol, dget_dset_ne, dget_dset_same]
  · rw [← hd2]; simp [setCol, dget_dset_ne, dget_dset_same]
  · rw [← hd2]; simp [setCol, dget_dset_ne, dget_dset_same]
  · rw [← hd2]; simp [setCol, dget_dset_ne, dget_dset_same]
  · rw [← hd2]; simp [setCol, dget_dset_ne, dget_dset_same]
  · rw [← hd2]; simp [setCol, dget_dset_ne, dget_dset_same]
  · rw [← hd2]; simp [setCol, dget_dset_ne, dget_dset_same]
  · intro c hc
    simp [mutatedCols] at hc
    obtain ⟨hc1, hc2, hc3, hc4, hc5, hc6, hc7, hc8⟩ := hc
    rw [← hd2]
    simp only [setCol]
    rw [dget_dset_ne _ _ (Ne.symm hc8), dget_dset_ne _ _ (Ne.symm hc7),
      dget_dset_ne _ _ (Ne.symm hc6), dget_dset_ne _ _ (Ne.symm hc5),
      dget_dset_ne _ _ (Ne.symm hc4), dget_dset_ne _ _ (Ne.symm hc3),
      dget_dset_ne _ _ (Ne.symm hc2), dget_dset_ne _ _ (Ne.symm hc1)]
  · rw [← hfin]
    have hkeys := selectColsA_keys _ _ _ h11
    show (renameCols sel).map Prod.fst = _
    rw [renameCols_keys, hkeys]
    rfl

/-- A one-row input frame as built from the API items: the eight fields the
pipeline uses plus one extra column the projection must drop. -/
def exDf : DataFrame :=
  ⟨[("sellerId", [Value.str "u1"]), ("buyerId", [Value.str "u2"]),
    ("sellerCountryId", [Value.str "c1"]), ("buyerCountryId", [Value.str "c2"]),
    ("itemCode", [Value.str "food"]), ("quantity", [Value.num 4]),
    ("money", [Value.num 100]), ("updatedAt", [Value.str "2025-10-12T03:45:21.000Z"]),
    ("extra", [Value.num 7])]⟩

/-- A user cache with both example users resolved. -/
def exUC : Cache := [(Value.str "u1", Value.str "alice"), (Value.str "u2", Value.str "bob")]

/-- A country cache with both example countries resolved. -/
def exCC : Cache := [(Value.str "c1", Value.str "Chile"), (Value.str "c2", Value.str "Peru")]

/-- The mutated input frame of the example run. -/
def exMut : DataFrame := ((clean_and_export exDf exUC exCC).toOption.getD (⟨[]⟩, ⟨[]⟩)).1

/-- The exported frame of the example run. -/
def exFin : DataFrame := ((clean_and_export exDf exUC exCC).toOption.getD (⟨[]⟩, ⟨[]⟩)).2

/-- C5: whenever `clean_and_export` completes, the exported frame has exactly
the nine output columns, in the fixed order, with the five renames applied —
whatever extra columns the input frame carries. -/
theorem c5_projection (df : DataFrame) (uc cc : Cache) (d2 fin : DataFrame)
    (h : clean_and_export df uc cc = Except.ok (d2, fin)) :
    colNames fin = ["sellerCountry", "sellBy", "itemCode", "quantity",
      "moneyPerUnit", "buyerCountry", "buyerBy", "totalMoney", "updatedAt"] := by
  obtain ⟨_, _, _, _, _, _, _, _, _, _, _, _, _, _, _, _, _, _, _, _, _, _, _, _, _, _,
    _, hcols⟩ := clean_ok_decomp df uc cc d2 fin h
  exact hcols

/-- C5 witness: the example run (whose input has an extra column) completes
and exports exactly the nine renamed columns in order. -/
theorem c5_projection_witness :
    clean_and_export exDf exUC exCC = Except.ok (exMut, exFin) ∧
    colNames exFin = ["sellerCountry", "sellBy", "itemCode", "quantity",
      "moneyPerUnit", "buyerCountry", "buyerBy", "totalMoney", "updatedAt"] :=
  ⟨rfl, c5_projection exDf exUC exCC exMut exFin rfl⟩

/-- C6: in step 2 of `clean_and_export`, each of the four identifier columns
is replaced by mapping every cell through its cache; a cached identifier
becomes exactly the cached value and an uncached one becomes the missing
marker `NaN`, never the raw ID (pandas `Series.map` with a dict uses strict
mapping semantics). -/
theorem c6_cache_replacement (df : DataFrame) (uc cc : Cache) (d2 fin : DataFrame)
    (h : clean_and_export df uc cc = Except.ok (d2, fin)) :
    ((∃ s0, dget "sellerId" df.cols = some s0 ∧
        dget "sellerId" d2.cols = some (s0.map (mapCell uc))) ∧
     (∃ b0, dget "buyerId" df.cols = some b0 ∧
        dget "buyerId" d2.cols = some (b0.map (mapCell uc))) ∧
     (∃ sc0, dget "sellerCountryId" df.cols = some sc0 ∧
        dget "sellerCountryId" d2.cols = some (sc0.map (mapCell cc))) ∧
     (∃ bc0, dget "buyerCountryId" df.cols = some bc0 ∧
        dget "buyerCountryId" d2.cols = some (bc0.map (mapCell cc)))) ∧
    (∀ cache v, dget v cache = none → mapCell cache v = Value.nan) ∧
    (∀ cache v w, dget v cache = some w → mapCell cache v = w) := by
  obtain ⟨_, _, s0, b0, sc0, bc0, _, _, _, _, _, _, hs0, hb0, hsc0, hbc0, _, _, _,
    _, hs2, hb2, hsc2, hbc2, _, _, _, _⟩ := clean_ok_decomp df uc cc d2 fin h
  refine ⟨⟨⟨s0, hs0, hs2⟩, ⟨b0, hb0, hb2⟩, ⟨sc0, hsc0, hsc2⟩, ⟨bc0, hbc0, hbc2⟩⟩, ?_, ?_⟩
  · intro cache v hv; simp [mapCell, hv]
  · intro cache v w hv; simp [mapCell, hv]

/-- C6 witness: the example run replaces the cached IDs by their names. -/
theorem c6_cache_replacement_witness :
    clean_and_export exDf exUC exCC = Except.ok (exMut, exFin) ∧
    dget "sellerId" exMut.cols = some [Value.str "alice"] ∧
    dget "sellerCountryId" exMut.cols = some [Value.str "Chile"] :=
  ⟨rfl, by
    obtain ⟨⟨⟨s0, hs0, hs2⟩, _, ⟨sc0, hsc0, hsc2⟩, _⟩, _, _⟩ :=
      c6_cache_replacement exDf exUC exCC exMut exFin rfl
    constructor
    · rw [hs2]
      have : s0 = [Value.str "u1"] := by
        have : dget "sellerId" exDf.cols = some [Value.str "u1"] := by decide
        rw [this] at hs0; exact (Option.some.inj hs0).symm
      subst this; decide
    · rw [hsc2]
      have : sc0 = [Value.str "c1"] := by
        have : dget "sellerCountryId" exDf.cols = some [Value.str "c1"] := by decide
        rw [this] at hsc0; exact (Option.some.inj hsc0).symm
      subst this; decide⟩

/-- A one-row input frame whose transaction has money 50 and quantity 0. -/
def exDfZeroQty : DataFrame :=
  ⟨[("sellerId", [Value.str "u1"]), ("buyerId", [Value.str "u2"]),
    ("sellerCountryId", [Value.str "c1"]), ("buyerCountryId", [Value.str "c2"]),
    ("itemCode", [Value.str "food"]), ("quantity", [Value.num 0]),
    ("money", [Value.num 50]), ("updatedAt", [Value.str "2025-10-12T03:45:21.000Z"])]⟩

/-- The `moneyPerUnit` column of the mutated frame of a run, when the run
succeeded and the column exists. -/
def mpuColOf (r : Except Err (DataFrame × DataFrame)) : Option (List Value) :=
  match r with
  | .ok p => dget "moneyPerUnit" p.1.cols
  | .error _ => none

/-- The `quantity` column of the mutated frame of a run. -/
def qtyColOf (r : Except Err (DataFrame × DataFrame)) : Option (List Value) :=
  match r with
  | .ok p => dget "quantity" p.1.cols
  | .error _ => none

/-- The `sellerId` column of the mutated frame of a run. -/
def sellerColOf (r : Except Err (DataFrame × DataFrame)) : Option (List Value) :=
  match r with
  | .ok p => dget "sellerId" p.1.cols
  | .error _ => none

/-- C3 (counterexample): on a row with money 50 and quantity 0 the run
completes and `moneyPerUnit` is positive infinity — numpy float division by
zero — not the missing marker the claim requires. -/
theorem c3_zero_quantity_gives_inf :
    qtyColOf (clean_and_export exDfZeroQty exUC exCC) = some [Value.num 0] ∧
    mpuColOf (clean_and_export exDfZeroQty exUC exCC) = some [Value.inf] ∧
    Value.inf ≠ Value.nan := by
  refine ⟨by decide, by decide, by decide⟩

/-- C3 (amended): in the mutated frame, `moneyPerUnit` is the elementwise
float division of the coerced money column by the coerced quantity column,
where: a nonzero (in particular any positive) quantity gives the exact
quotient, a missing quantity propagates the missing marker, an unparsable
quantity was already coerced to missing, and a zero quantity gives a signed
infinity (`NaN` only for 0/0).  The division itself is total — it never
raises. -/
theorem c3_money_per_unit (df : DataFrame) (uc cc : Cache) (d2 fin : DataFrame)
    (h : clean_and_export df uc cc = Except.ok (d2, fin)) :
    (∃ mon qty, dget "money" d2.cols = some mon ∧ dget "quantity" d2.cols = some qty ∧
      dget "moneyPerUnit" d2.cols = some (List.zipWith floatDiv mon qty)) ∧
    (∀ a b, b ≠ 0 → floatDiv (Value.num a) (Value.num b) = Value.num (a / b)) ∧
    (∀ v, floatDiv v Value.nan = Value.nan) ∧
    (∀ a, 0 < a → floatDiv (Value.num a) (Value.num 0) = Value.inf) ∧
    (∀ a, a < 0 → floatDiv (Value.num a) (Value.num 0) = Value.ninf) ∧
    (floatDiv (Value.num 0) (Value.num 0) = Value.nan) ∧
    (∀ s, parseFloatQ s = none → to_numeric_coerce (Value.str s) = Value.nan) := by
  obtain ⟨_, _, _, _, _, _, _, mon1, _, _, _, _, _, _, _, _, _, _, hm2, hq2, _, _,
    _, _, hmpu, _, _, _⟩ := clean_ok_decomp df uc cc d2 fin h
  refine ⟨⟨mon1, _, hm2, hq2, hmpu⟩, ?_, ?_, ?_, ?_, by simp [floatDiv], ?_⟩
  · intro a b hb; simp [floatDiv, hb]
  · intro v; cases v <;> rfl
  · intro a ha
    simp [floatDiv, ha]
  · intro a ha
    simp [floatDiv, ha, ha.not_lt]
  · intro s hs; simp [to_numeric_coerce, hs]

/-- C3 witness: the example run satisfies the division characterisation. -/
theorem c3_money_per_unit_witness :
    clean_and_export exDf exUC exCC = Except.ok (exMut, exFin) ∧
    (∃ mon qty, dget "money" exMut.cols = some mon ∧
      dget "quantity" exMut.cols = some qty ∧
      dget "moneyPerUnit" exMut.cols = some (List.zipWith floatDiv mon qty)) :=
  ⟨rfl, (c3_money_per_unit exDf exUC exCC exMut exFin rfl).1⟩

/-- C9 (counterexample): `clean_and_export` mutates the collection built by
the fetch: after the example run, the `sellerId` column of the very frame
passed in holds the resolved name, no longer the raw ID. -/
theorem c9_collection_mutated :
    sellerColOf (clean_and_export exDf exUC exCC) = some [Value.str "alice"] ∧
    dget "sellerId" exDf.cols = some [Value.str "u1"] ∧
    some [Value.str "alice"] ≠ some [Value.str "u1"] := by
  refine ⟨by decide, by decide, by decide⟩

/-- C9 (amended): the collection is not read-only — `clean_and_export`
reassigns the money, quantity, four identifier and `updatedAt` columns and
appends `moneyPerUnit` — but it touches nothing else: every other column of
the input frame is unchanged in the mutated frame.  (Name resolution reads
only the ID columns and writes only the caches; it never writes the frame.) -/
theorem c9_untouched_columns (df : DataFrame) (uc cc : Cache) (d2 fin : DataFrame)
    (c : String) (h : clean_and_export df uc cc = Except.ok (d2, fin))
    (hc : c ∉ mutatedCols) : dget c d2.cols = dget c df.cols := by
  obtain ⟨_, _, _, _, _, _, _, _, _, _, _, _, _, _, _, _, _, _, _, _, _, _,
    _, _, _, _, hframe, _⟩ := clean_ok_decomp df uc cc d2 fin h
  exact hframe c hc

/-- C9 witness: the extra column of the example frame survives untouched. -/
theorem c9_untouched_columns_witness :
    ("extra" ∉ mutatedCols) ∧ dget "extra" exMut.cols = dget "extra" exDf.cols :=
  ⟨by decide, c9_untouched_columns exDf exUC exCC exMut exFin "extra" rfl (by decide)⟩

theorem getColE_error_shape {df : DataFrame} {c : String} {e : Err}
    (h : getColE df c = .error e) : e = Err.keyError c := by
  unfold getColE at h
  cases hd : dget c df.cols with
  | none => simp [hd] at h; exact h.symm
  | some col => simp [hd] at h

theorem mapColE_error_mem {f : Value → Except Err Value} {l : List Value} {e : Err}
    (h : mapColE f l = .error e) : ∃ v ∈ l, f v = .error e := by
  induction l with
  | nil => simp [mapColE] at h
  | cons a t ih =>
    unfold mapColE at h
    cases ha : f a with
    | error e1 =>
      simp only [ha] at h
      injection h with h1
      subst h1
      exact ⟨a, by simp, ha⟩
    | ok w =>
      simp only [ha] at h
      cases ht : mapColE f t with
      | error e1 =>
        simp only [ht] at h
        injection h with h1
        subst h1
        obtain ⟨v, hv, hfv⟩ := ih ht
        exact ⟨v, by simp [hv], hfv⟩
      | ok ws => simp [ht] at h

theorem astype_float_error_shape {v : Value} {e : Err} (h : astype_float v = .error e) :
    ∃ s, v = Value.str s ∧ parseFloatQ s = none ∧ e = Err.valueError s := by
  cases v with
  | str s =>
    unfold astype_float at h
    cases hp : parseFloatQ s with
    | some q => simp [hp] at h
    | none =>
      simp only [hp] at h
      injection h with h1
      exact ⟨s, rfl, hp, h1.symm⟩
  | num q => simp [astype_float] at h
  | nan => simp [astype_float] at h
  | inf => simp [astype_float] at h
  | ninf => simp [astype_float] at h

theorem fmt_updatedAt_error_shape {v : Value} {e : Err}
    (h : fmt_updatedAt v = .error e) : ∃ w, e = Err.dateError w := by
  cases v with
  | str s =>
    unfold fmt_updatedAt at h
    cases hp : parseIso s with
    | some out => simp [hp] at h
    | none =>
      simp only [hp] at h
      injection h with h1
      exact ⟨Value.str s, h1.symm⟩
  | nan => simp [fmt_updatedAt] at h
  | num q => unfold fmt_updatedAt at h; injection h with h1; exact ⟨Value.num q, h1.symm⟩
  | inf => unfold fmt_updatedAt at h; injection h with h1; exact ⟨Value.inf, h1.symm⟩
  | ninf => unfold fmt_updatedAt at h; injection h with h1; exact ⟨Value.ninf, h1.symm⟩

theorem selectColsA_error_shape {df : DataFrame} {ns : List String} {e : Err}
    (h : selectColsA df ns = .error e) : ∃ c, e = Err.keyError c := by
  induction ns with
  | nil => simp [selectColsA] at h
  | cons n t ih =>
    unfold selectColsA at h
    cases h1 : getColE df n with
    | error e1 =>
      simp only [h1] at h
      injection h with h2
      subst h2
      exact ⟨n, getColE_error_shape h1⟩
    | ok col =>
      simp only [h1] at h
      cases h2 : selectColsA df t with
      | error e1 =>
        simp only [h2] at h
        injection h with h3
        subst h3
        exact ih h2
      | ok rest => simp [h2] at h

/-- A one-row input frame whose money cell is the unparsable string "abc". -/
def exDfBadMoney : DataFrame :=
  ⟨[("sellerId", [Value.str "u1"]), ("buyerId", [Value.str "u2"]),
    ("sellerCountryId", [Value.str "c1"]), ("buyerCountryId", [Value.str "c2"]),
    ("itemCode", [Value.str "food"]), ("quantity", [Value.num 4]),
    ("money", [Value.str "abc"]), ("updatedAt", [Value.str "2025-10-12T03:45:21.000Z"])]⟩

/-- A one-row input frame whose quantity cell is the unparsable string "abc". -/
def exDfBadQty : DataFrame :=
  ⟨[("sellerId", [Value.str "u1"]), ("buyerId", [Value.str "u2"]),
    ("sellerCountryId", [Value.str "c1"]), ("buyerCountryId", [Value.str "c2"]),
    ("itemCode", [Value.str "food"]), ("quantity", [Value.str "abc"]),
    ("money", [Value.num 100]), ("updatedAt", [Value.str "2025-10-12T03:45:21.000Z"])]⟩

/-- C4 (counterexample): an unparsable money cell is not recovered per-cell —
`astype(float)` raises `ValueError` and the whole batch aborts. -/
theorem c4_money_unparsable_aborts :
    clean_and_export exDfBadMoney exUC exCC = Except.error (Err.valueError "abc") ∧
    dget "money" exDfBadMoney.cols = some [Value.str "abc"] := by
  refine ⟨rfl, by decide⟩

/-- C4 (amended): only the quantity coercion recovers per-cell — an
unparsable quantity string becomes the missing marker and never terminates
the run, whereas an unparsable money string raises `ValueError`.  Every abort
of `clean_and_export` is a missing column (`KeyError`), an unparsable string
in the money column (`ValueError`), or an invalid timestamp; no abort is
caused by the quantity column's values. -/
theorem c4_quantity_recovered_money_raises (df : DataFrame) (uc cc : Cache) (e : Err)
    (h : clean_and_export df uc cc = Except.error e) :
    ((∃ c, e = Err.keyError c) ∨
     (∃ s, e = Err.valueError s ∧ parseFloatQ s = none ∧
        ∃ mon0, dget "money" df.cols = some mon0 ∧ Value.str s ∈ mon0) ∨
     (∃ v, e = Err.dateError v)) ∧
    (∀ s, parseFloatQ s = none → to_numeric_coerce (Value.str s) = Value.nan) ∧
    (∀ s, parseFloatQ s = none →
      astype_float (Value.str s) = Except.error (Err.valueError s)) := by
  have hcoerce : ∀ s, parseFloatQ s = none →
      to_numeric_coerce (Value.str s) = Value.nan := by
    intro s hs; simp [to_numeric_coerce, hs]
  have hraise : ∀ s, parseFloatQ s = none →
      astype_float (Value.str s) = Except.error (Err.valueError s) := by
    intro s hs; simp [astype_float, hs]
  refine ⟨?_, hcoerce, hraise⟩
  simp only [clean_and_export] at h
  split at h
  · rename_i e1 heq
    injection h with h1
    subst h1
    exact Or.inl ⟨"money", getColE_error_shape heq⟩
  rename_i mon0 h0
  split at h
  · rename_i e1 heq
    injection h with h1
    subst h1
    obtain ⟨v, hvmem, hverr⟩ := mapColE_error_mem heq
    obtain ⟨s, rfl, hps, rfl⟩ := astype_float_error_shape hverr
    exact Or.inr (Or.inl ⟨s, rfl, hps, mon0, getColE_ok_dget h0, hvmem⟩)
  rename_i mon1 h1
  split at h
  · rename_i e1 heq
    injection h with hx
    subst hx
    simp only [getColE_setCol_ne _ "quantity" "money" _ (by decide)] at heq
    exact Or.inl ⟨"quantity", getColE_error_shape heq⟩
  rename_i qty0 h2
  split at h
  · rename_i e1 heq
    injection h with hx
    subst hx
    simp [getColE_setCol_ne] at heq
    exact Or.inl ⟨"sellerId", getColE_error_shape heq⟩
  rename_i s0 h3
  split at h
  · rename_i e1 heq
    injection h with hx
    subst hx
    simp [getColE_setCol_ne] at heq
    exact Or.inl ⟨"buyerId", getColE_error_shape heq⟩
  rename_i b0 h4
  split at h
  · rename_i e1 heq
    injection h with hx
    subst hx
    simp [getColE_setCol_ne] at heq
    exact Or.inl ⟨"sellerCountryId", getColE_error_shape heq⟩
  rename_i sc0 h5
  split at h
  · rename_i e1 heq
    injection h with hx
    subst hx
    simp [getColE_setCol_ne] at heq
    exact Or.inl ⟨"buyerCountryId", getColE_error_shape heq⟩
  rename_i bc0 h6
  split at h
  · rename_i e1 heq
    simp [getColE_setCol_ne, getColE_setCol_same] at heq
  rename_i m h7
  split at h
  · rename_i e1 heq
    simp [getColE_setCol_ne, getColE_setCol_same] at heq
  rename_i q h8
  split at h
  · rename_i e1 heq
    injection h with hx
    subst hx
    simp [getColE_setCol_ne] at heq
    exact Or.inl ⟨"updatedAt", getColE_error_shape heq⟩
  rename_i u0 h9
  split at h
  · rename_i e1 heq
    injection h with hx
    subst hx
    obtain ⟨v, hvmem, hverr⟩ := mapColE_error_mem heq
    exact Or.inr (Or.inr (fmt_updatedAt_error_shape hverr))
  rename_i u1 h10
  split at h
  · rename_i e1 heq
    injection h with hx
    subst hx
    exact Or.inl (selectColsA_error_shape heq)
  rename_i sel h11
  exact Except.noConfusion h

/-- C4 witness: at the concrete failing run the abort is the money
`ValueError`; and a run whose quantity cell is the same unparsable string
completes, with the cell coerced to the missing marker. -/
theorem c4_quantity_recovered_money_raises_witness :
    clean_and_export exDfBadMoney exUC exCC = Except.error (Err.valueError "abc") ∧
    ((∃ c, Err.valueError "abc" = Err.keyError c) ∨
     (∃ s, Err.valueError "abc" = Err.valueError s ∧ parseFloatQ s = none ∧
        ∃ mon0, dget "money" exDfBadMoney.cols = some mon0 ∧ Value.str s ∈ mon0) ∨
     (∃ v, Err.valueError "abc" = Err.dateError v)) ∧
    qtyColOf (clean_and_export exDfBadQty exUC exCC) = some [Value.nan] :=
  ⟨rfl,
   (c4_quantity_recovered_money_raises exDfBadMoney exUC exCC
     (Err.valueError "abc") rfl).1,
   by decide⟩

/-- `pd.unique` over flattened values: first-occurrence order, duplicates
dropped. -/
def uniqueVals (l : List Value) : List Value :=
  l.foldl (fun acc v => if v ∈ acc then acc else acc ++ [v]) []

/-- Row-wise flattening of two aligned columns, as
`df[[a, b]].values.ravel('K')` lays a two-column object block out. -/
def ravel2 (a b : List Value) : List Value :=
  (List.zip a b).foldr (fun p acc => p.1 :: p.2 :: acc) []

/-- Embedding of the `__main__` block: fetch, build the frame, extract the
unique user and country IDs (raising `KeyError` if a column is absent),
resolve them through the worker pool (keys are deduplicated, so the pool's
interleaving cannot make two calls write one key; the final caches equal the
sequential fold), then transform and export. -/
def run_main (pages : List Page) (unet cnet : Value → Option String) :
    Except Err (DataFrame × DataFrame) :=
  let df := dfOfRecords (fetch_transactions pages)
  match getColE df "sellerId" with
  | .error e => .error e
  | .ok sellers =>
  match getColE df "buyerId" with
  | .error e => .error e
  | .ok buyers =>
  let user_ids := uniqueVals (ravel2 sellers buyers)
  match getColE df "sellerCountryId" with
  | .error e => .error e
  | .ok sCountries =>
  match getColE df "buyerCountryId" with
  | .error e => .error e
  | .ok bCountries =>
  let country_ids := uniqueVals (ravel2 sCountries bCountries)
  let user_cache := user_ids.foldl (fun c v => (fetch_username unet c v).1) []
  let country_cache := country_ids.foldl (fun c v => (fetch_country_name cnet c v).1) []
  clean_and_export df user_cache country_cache

/-- C10: when the fetch yields an empty collection, `pd.DataFrame([])` has no
columns at all, so the unique-ID extraction `df[["sellerId", "buyerId"]]`
raises `KeyError` — the pipeline dies there, before any resolution, transform
or export, and returns no output pair (no files are written). -/
theorem c10_empty_fetch_fatal (pages : List Page) (unet cnet : Value → Option String)
    (h : fetch_transactions pages = []) :
    run_main pages unet cnet = Except.error (Err.keyError "sellerId") := by
  unfold run_main
  rw [h]
  rfl

/-- C10 witness: a single successful page with an empty item list. -/
theorem c10_empty_fetch_fatal_witness :
    fetch_transactions [⟨200, [], none⟩] = [] ∧
    run_main [⟨200, [], none⟩] (fun _ => none) (fun _ => none) =
      Except.error (Err.keyError "sellerId") :=
  ⟨rfl, c10_empty_fetch_fatal [⟨200, [], none⟩] (fun _ => none) (fun _ => none) rfl⟩

/-- Numeric value of a digit character. -/
def charToDigit (c : Char) : Nat := c.toNat - 48

theorem digitsToNat_append (xs : List Char) (c : Char) :
    digitsToNat (xs ++ [c]) = 10 * digitsToNat xs + (c.toNat - 48) := by
  unfold digitsToNat
  rw [List.foldl_append]
  rfl

theorem digitChar_toNat {d : Nat} (h : d < 10) : (digitChar d).toNat = 48 + d := by
  interval_cases d <;> rfl

theorem isDigitC_digitChar {d : Nat} (h : d < 10) : isDigitC (digitChar d) = true := by
  interval_cases d <;> rfl

theorem charToDigit_digitChar {d : Nat} (h : d < 10) : charToDigit (digitChar d) = d := by
  interval_cases d <;> rfl

theorem charToDigit_lt {c : Char} (h : isDigitC c = true) : charToDigit c < 10 := by
  simp [isDigitC] at h
  unfold charToDigit
  omega

theorem isDigitC_ne_dash {c : Char} (h : isDigitC c = true) : c ≠ '-' := by
  intro hc
  subst hc
  simp [isDigitC] at h

theorem isDigitC_dot : isDigitC '.' = false := rfl

/-- Big-endian decimal digit characters of a natural number (the way Python
`str(int)` renders it). -/
def printNatChars (n : Nat) : List Char :=
  if n = 0 then ['0'] else (Nat.digits 10 n).reverse.map digitChar

theorem printNatChars_ne_nil (n : Nat) : printNatChars n ≠ [] := by
  unfold printNatChars
  by_cases h : n = 0
  · simp [h]
  · simp [h, Nat.digits_ne_nil_iff_ne_zero.mpr h]

theorem printNatChars_all_digits (n : Nat) : (printNatChars n).all isDigitC = true := by
  unfold printNatChars
  by_cases h : n = 0
  · simp [h]; rfl
  · simp only [h, if_false, List.all_eq_true]
    intro c hc
    simp only [List.mem_map, List.mem_reverse] at hc
    obtain ⟨d, hd, rfl⟩ := hc
    exact isDigitC_digitChar (Nat.digits_lt_base (by omega) hd)

theorem digitsToNat_digitChars (ds : List Nat) (hd : ∀ d ∈ ds, d < 10) :
    digitsToNat (ds.reverse.map digitChar) = Nat.ofDigits 10 ds := by
  induction ds with
  | nil => rfl
  | cons d t ih =>
    have hdlt : d < 10 := hd d (by simp)
    simp only [List.reverse_cons, List.map_append, List.map_cons, List.map_nil]
    rw [digitsToNat_append, ih (fun x hx => hd x (by simp [hx]))]
    rw [digitChar_toNat hdlt, Nat.ofDigits_cons]
    omega

theorem digitsToNat_printNatChars (n : Nat) : digitsToNat (printNatChars n) = n := by
  unfold printNatChars
  by_cases h : n = 0
  · simp [h]; rfl
  · simp only [h, if_false]
    rw [digitsToNat_digitChars _ (fun d hd => Nat.digits_lt_base (by omega) hd)]
    exact_mod_cast Nat.ofDigits_digits 10 n

/-- Parse a non-empty all-digit character list as a natural number (the shape
the pandas CSV reader accepts for an integer cell, sign aside). -/
def parseNatC (l : List Char) : Option Nat :=
  if l ≠ [] ∧ l.all isDigitC then some (digitsToNat l) else none

theorem parseNatC_printNatChars (n : Nat) : parseNatC (printNatChars n) = some n := by
  unfold parseNatC
  simp [printNatChars_ne_nil n, printNatChars_all_digits n, digitsToNat_printNatChars n]

theorem parseNatC_none_of_dot {l : List Char} (h : '.' ∈ l) : parseNatC l = none := by
  have hall : ¬ (l.all isDigitC = true) := by
    intro hall
    have h2 := (List.all_eq_true.mp hall) '.' h
    rw [isDigitC_dot] at h2
    exact absurd h2 (by decide)
  unfold parseNatC
  simp [hall]

/-- One integer cell as the pandas CSV reader accepts it: optional minus sign
followed by digits. -/
def parseIntS (s : String) : Option Int :=
  match s.data with
  | [] => none
  | c :: t =>
    if c = '-' then (parseNatC t).map (fun n => -(n : Int))
    else (parseNatC (c :: t)).map (fun n => (n : Int))

/-- An integer cell as `to_csv` writes an int64 column: `str(int)`. -/
def printIntS (i : Int) : String :=
  if i < 0 then String.mk ('-' :: printNatChars i.natAbs)
  else String.mk (printNatChars i.natAbs)

theorem parseIntS_printIntS (i : Int) : parseIntS (printIntS i) = some i := by
  unfold printIntS
  by_cases hneg : i < 0
  · simp only [hneg, if_true]
    unfold parseIntS
    simp [parseNatC_printNatChars]
    rw [abs_of_neg hneg, neg_neg]
  · simp only [hneg, if_false]
    unfold parseIntS
    cases hpc : printNatChars i.natAbs with
    | nil => exact absurd hpc (printNatChars_ne_nil _)
    | cons c t =>
      have hdig : isDigitC c = true := by
        have hall := printNatChars_all_digits i.natAbs
        rw [hpc] at hall
        simp only [List.all_cons, Bool.and_eq_true] at hall
        exact hall.1
      have hc : ¬ c = '-' := isDigitC_ne_dash hdig
      simp [hc, ← hpc, parseNatC_printNatChars]
      exact not_lt.mp hneg

/-- Drop trailing zeros of a fraction-digit list (the pandas float repr never
shows them). -/
def stripZeros (l : List Nat) : List Nat :=
  (l.reverse.dropWhile (fun d => decide (d = 0))).reverse

theorem dropWhile_dropWhile {α : Type} (p : α → Bool) (l : List α) :
    List.dropWhile p (List.dropWhile p l) = List.dropWhile p l := by
  induction l with
  | nil => rfl
  | cons a t ih =>
    rw [List.dropWhile_cons]
    by_cases ha : p a = true
    · simp [ha, ih]
    · simp [ha, List.dropWhile_cons]

theorem mem_of_mem_dropWhileB {α : Type} (p : α → Bool) {l : List α} {a : α}
    (h : a ∈ List.dropWhile p l) : a ∈ l := by
  induction l with
  | nil => simp at h
  | cons b t ih =>
    rw [List.dropWhile_cons] at h
    by_cases hb : p b = true
    · simp only [hb, if_true] at h
      exact List.mem_cons_of_mem _ (ih h)
    · simp only [hb, if_false] at h
      exact h

theorem stripZeros_idem (l : List Nat) : stripZeros (stripZeros l) = stripZeros l := by
  unfold stripZeros
  rw [List.reverse_reverse, dropWhile_dropWhile]

theorem mem_stripZeros {l : List Nat} {d : Nat} (h : d ∈ stripZeros l) : d ∈ l := by
  unfold stripZeros at h
  rw [List.mem_reverse] at h
  exact List.mem_reverse.mp (mem_of_mem_dropWhileB _ h)

/-- Magnitude part of a float cell as the pandas CSV reader accepts it:
digits, optionally a dot and fraction digits; the parsed fraction is kept
with trailing zeros dropped (two literals denoting the same double parse to
the same representation). -/
def parseFloatMag (l : List Char) : Option (Nat × List Nat) :=
  let ip := l.takeWhile isDigitC
  let rest := l.dropWhile isDigitC
  match rest with
  | [] => if ip = [] then none else some (digitsToNat ip, [])
  | '.' :: frac =>
    if frac ≠ [] ∧ frac.all isDigitC then
      some (digitsToNat ip, stripZeros (frac.map charToDigit))
    else none
  | _ => none

/-- One float cell as the pandas CSV reader accepts it (sign, integer part,
canonical fraction digits). -/
def parseFloatS (s : String) : Option (Bool × Nat × List Nat) :=
  match s.data with
  | [] => none
  | c :: t =>
    if c = '-' then (parseFloatMag t).map (fun p => (true, p))
    else (parseFloatMag (c :: t)).map (fun p => (false, p))

/-- Fraction digits as `to_csv` writes a float64 column: at least one digit
after the dot. -/
def printFracChars (fr : List Nat) : List Char :=
  match fr with
  | [] => ['0']
  | _ => fr.map digitChar

/-- A float cell as `to_csv` writes a float64 column (shortest decimal form,
always with a dot). -/
def printFloatS (r : Bool × Nat × List Nat) : String :=
  String.mk ((if r.1 then ['-'] else []) ++ printNatChars r.2.1 ++ '.' :: printFracChars r.2.2)

theorem splitDigits_append_dot (xs ys : List Char) (hxs : xs.all isDigitC = true) :
    (xs ++ '.' :: ys).takeWhile isDigitC = xs ∧
    (xs ++ '.' :: ys).dropWhile isDigitC = '.' :: ys := by
  induction xs with
  | nil => simp [List.takeWhile_cons, List.dropWhile_cons, isDigitC_dot]
  | cons c t ih =>
    simp only [List.all_cons, Bool.and_eq_true] at hxs
    obtain ⟨hc, ht⟩ := hxs
    obtain ⟨ih1, ih2⟩ := ih ht
    simp [List.takeWhile_cons, List.dropWhile_cons, hc, ih1, ih2]

theorem parseFloatMag_print (ip : Nat) (fr : List Nat) (hfr : stripZeros fr = fr)
    (hlt : ∀ d ∈ fr, d < 10) :
    parseFloatMag (printNatChars ip ++ '.' :: printFracChars fr) = some (ip, fr) := by
  obtain ⟨htake, hdrop⟩ :=
    splitDigits_append_dot (printNatChars ip) (printFracChars fr) (printNatChars_all_digits ip)
  unfold parseFloatMag
  simp only [htake, hdrop]
  have hfrne : printFracChars fr ≠ [] := by
    unfold printFracChars
    cases fr <;> simp
  have hfrall : (printFracChars fr).all isDigitC = true := by
    unfold printFracChars
    cases fr with
    | nil => rfl
    | cons d t =>
      simp only [List.all_eq_true]
      intro c hc
      simp only [List.mem_map] at hc
      obtain ⟨d2, hd2, rfl⟩ := hc
      exact isDigitC_digitChar (hlt d2 hd2)
  simp only [hfrne, hfrall, and_self, if_true, ne_eq, not_false_iff, true_and]
  rw [digitsToNat_printNatChars]
  have hmap : stripZeros ((printFracChars fr).map charToDigit) = fr := by
    unfold printFracChars
    cases fr with
    | nil => rfl
    | cons d t =>
      rw [List.map_map]
      have hid : ((d :: t).map (charToDigit ∘ digitChar)) = (d :: t).map id := by
        apply List.map_congr_left
        intro a ha
        exact charToDigit_digitChar (hlt a ha)
      rw [hid, List.map_id, hfr]
  rw [hmap]

theorem parseFloatMag_good {l : List Char} {p : Nat × List Nat}
    (h : parseFloatMag l = some p) : stripZeros p.2 = p.2 ∧ ∀ d ∈ p.2, d < 10 := by
  simp only [parseFloatMag] at h
  split at h
  · split at h
    · exact Option.noConfusion h
    · injection h with h1
      subst h1
      exact ⟨rfl, by intro d hd; simp at hd⟩
  · rename_i frac hrest
    split at h
    · rename_i hfrac
      injection h with h1
      subst h1
      refine ⟨stripZeros_idem _, ?_⟩
      intro d hd
      have hd2 := mem_stripZeros hd
      simp only [List.mem_map] at hd2
      obtain ⟨c, hc, rfl⟩ := hd2
      exact charToDigit_lt ((List.all_eq_true.mp hfrac.2) c hc)
    · exact Option.noConfusion h
  · exact Option.noConfusion h

theorem parseFloatS_print_eq (sg : Bool) (ip : Nat) (fr : List Nat) :
    parseFloatS (printFloatS (sg, ip, fr)) =
      Option.map (fun p => (sg, p))
        (parseFloatMag (printNatChars ip ++ '.' :: printFracChars fr)) := by
  cases hpc : printNatChars ip with
  | nil => exact absurd hpc (printNatChars_ne_nil _)
  | cons c t =>
    have hdig : isDigitC c = true := by
      have hall := printNatChars_all_digits ip
      rw [hpc] at hall
      simp only [List.all_cons, Bool.and_eq_true] at hall
      exact hall.1
    have hc : ¬ c = '-' := isDigitC_ne_dash hdig
    cases sg with
    | true =>
      unfold printFloatS parseFloatS
      rw [hpc]
      simp [List.cons_append]
    | false =>
      unfold printFloatS parseFloatS
      rw [hpc]
      simp [hc, List.cons_append]

theorem parseFloatS_print {s : String} {r : Bool × Nat × List Nat}
    (h : parseFloatS s = some r) : parseFloatS (printFloatS r) = some r := by
  obtain ⟨sg, ip, fr⟩ := r
  have hgood : stripZeros fr = fr ∧ ∀ d ∈ fr, d < 10 := by
    unfold parseFloatS at h
    split at h
    · exact Option.noConfusion h
    · rename_i c t hdata
      by_cases hc : c = '-'
      · rw [if_pos hc] at h
        cases hm : parseFloatMag t with
        | none => rw [hm] at h; exact Option.noConfusion h
        | some p =>
          rw [hm] at h
          rw [Option.map_some'] at h
          injection h with h1
          have hp2 : p = (ip, fr) := by
            have := congrArg Prod.snd h1
            simpa using this
          subst hp2
          exact parseFloatMag_good hm
      · rw [if_neg hc] at h
        cases hm : parseFloatMag (c :: t) with
        | none => rw [hm] at h; exact Option.noConfusion h
        | some p =>
          rw [hm] at h
          rw [Option.map_some'] at h
          injection h with h1
          have hp2 : p = (ip, fr) := by
            have := congrArg Prod.snd h1
            simpa using this
          subst hp2
          exact parseFloatMag_good hm
  obtain ⟨hfr, hlt⟩ := hgood
  rw [parseFloatS_print_eq, parseFloatMag_print ip fr hfr hlt]
  rfl

theorem parseIntS_printFloatS (r : Bool × Nat × List Nat) :
    parseIntS (printFloatS r) = none := by
  obtain ⟨sg, ip, fr⟩ := r
  cases hpc : printNatChars ip with
  | nil => exact absurd hpc (printNatChars_ne_nil _)
  | cons c t =>
    have hdig : isDigitC c = true := by
      have hall := printNatChars_all_digits ip
      rw [hpc] at hall
      simp only [List.all_cons, Bool.and_eq_true] at hall
      exact hall.1
    have hc : ¬ c = '-' := isDigitC_ne_dash hdig
    have hdot : '.' ∈ c :: (t ++ '.' :: printFracChars fr) := by
      simp
    cases sg with
    | true =>
      unfold printFloatS parseIntS
      rw [hpc]
      simp [List.cons_append, parseNatC_none_of_dot hdot]
    | false =>
      unfold printFloatS parseIntS
      rw [hpc]
      simp [hc, List.cons_append, parseNatC_none_of_dot hdot]

/-- Rendering of one cell of an int64 column after the pandas read/write
round trip. -/
def canonIntCell (s : String) : String := printIntS ((parseIntS s).getD 0)

/-- Rendering of one cell of a float64 column after the pandas read/write
round trip. -/
def canonFloatCell (s : String) : String := printFloatS ((parseFloatS s).getD (false, 0, []))

/-- One column of the re-saved CSV, embedding the `pd.read_csv` dtype
inference followed by `to_csv`: a column whose cells all parse as integers is
read as int64 and re-printed; otherwise, if all cells parse as floats it is
read as float64 and re-printed; otherwise it stays an object column and the
strings are written back verbatim. -/
def canonCol (col : List String) : List String :=
  if col.all (fun s => (parseIntS s).isSome) then col.map canonIntCell
  else if col.all (fun s => (parseFloatS s).isSome) then col.map canonFloatCell
  else col

theorem canonIntCell_idem (s : String) : canonIntCell (canonIntCell s) = canonIntCell s := by
  unfold canonIntCell
  rw [parseIntS_printIntS]
  rfl

theorem canonFloatCell_idem {s : String} {r : Bool × Nat × List Nat}
    (hr : parseFloatS s = some r) : canonFloatCell (canonFloatCell s) = canonFloatCell s := by
  unfold canonFloatCell
  rw [hr]
  simp only [Option.getD_some]
  rw [parseFloatS_print hr]
  rfl

theorem canonCol_idem (col : List String) : canonCol (canonCol col) = canonCol col := by
  by_cases hint : col.all (fun s => (parseIntS s).isSome) = true
  · have hcol1 : canonCol col = col.map canonIntCell := by
      unfold canonCol
      rw [if_pos hint]
    rw [hcol1]
    have hall2 : (col.map canonIntCell).all (fun s => (parseIntS s).isSome) = true := by
      simp only [List.all_map, List.all_eq_true, Function.comp]
      intro s hs
      simp [canonIntCell, parseIntS_printIntS]
    unfold canonCol
    rw [if_pos hall2, List.map_map]
    exact List.map_congr_left (fun s _ => canonIntCell_idem s)
  · by_cases hfl : col.all (fun s => (parseFloatS s).isSome) = true
    · have hcol1 : canonCol col = col.map canonFloatCell := by
        unfold canonCol
        rw [if_neg hint, if_pos hfl]
      rw [hcol1]
      have hne : col ≠ [] := by
        intro hnil
        subst hnil
        simp at hint
      have hint2 : ¬ ((col.map canonFloatCell).all (fun s => (parseIntS s).isSome) = true) := by
        intro hall
        cases col with
        | nil => exact hne rfl
        | cons a t =>
          have ha := (List.all_eq_true.mp hall) (canonFloatCell a) (by simp)
          rw [show canonFloatCell a = printFloatS ((parseFloatS a).getD (false, 0, []))
            from rfl] at ha
          rw [parseIntS_printFloatS] at ha
          simp at ha
      have hfl2 : (col.map canonFloatCell).all (fun s => (parseFloatS s).isSome) = true := by
        simp only [List.all_map, List.all_eq_true, Function.comp]
        intro s hs
        have hsome := (List.all_eq_true.mp hfl) s hs
        obtain ⟨r, hr⟩ := Option.isSome_iff_exists.mp (by simpa using hsome)
        have := parseFloatS_print hr
        simp [canonFloatCell, hr, this]
      unfold canonCol
      rw [if_neg hint2, if_pos hfl2, List.map_map]
      apply List.map_congr_left
      intro s hs
      have hsome := (List.all_eq_true.mp hfl) s hs
      obtain ⟨r, hr⟩ := Option.isSome_iff_exists.mp (by simpa using hsome)
      exact canonFloatCell_idem hr
    · have hcol1 : canonCol col = col := by
        unfold canonCol
        rw [if_neg hint, if_neg hfl]
      rw [hcol1, hcol1]

/-- One of the delimited export files, as `test2.py` sees it: whether a
byte-order marker leads the file, the header row, and the data cells by
column (pandas reads and writes a CSV column-typed; the data rows are the
transpose). -/
structure CsvFile : Type where
  bom : Bool
  header : List String
  cols : List (List String)
deriving DecidableEq

/-- Embedding of the CSV branch of `test2.py`:
`pd.read_csv(f, encoding="utf-8-sig")` (dtype inference per column, BOM
dropped) followed by `df.to_csv(f, index=False, encoding="utf-8")` (no BOM,
header kept, cells re-rendered per the inferred dtype). -/
def cleanCsv (f : CsvFile) : CsvFile := ⟨false, f.header, f.cols.map canonCol⟩

/-- The data rows of a file (cells row by row, below the header). -/
def dataRows (f : CsvFile) : List (List String) := f.cols.transpose

/-- C8: the cleanup rewrite is a no-op on the content of an already-clean
file.  "Already clean" means a file the rewrite itself has produced (its
cells are in the canonical rendering of their column's dtype and it carries
no byte-order marker); on every such file `cleanCsv` returns the file
unchanged — header and data rows byte-identical — so only the encoding
marker of a not-yet-clean input can ever differ.  (The spreadsheet branch of
`test2.py` re-writes the typed cell values `read_excel` returns and does not
reformat them, so its content round trip is immediate.) -/
theorem c8_cleanup_idempotent (g : CsvFile) :
    cleanCsv (cleanCsv g) = cleanCsv g ∧
    dataRows (cleanCsv (cleanCsv g)) = dataRows (cleanCsv g) := by
  have h : cleanCsv (cleanCsv g) = cleanCsv g := by
    unfold cleanCsv
    simp only [List.map_map, CsvFile.mk.injEq, true_and]
    exact List.map_congr_left (fun col _ => canonCol_idem col)
  exact ⟨h, by rw [h]⟩
